import Mathlib

/-!
Verification of the chat application `src/chatbot.py`.

Strings are modelled as `List Char` (Python `str` is a sequence of code
points; `len`, slicing and `strip` act on code points).  The SQLite store
is modelled as an explicit state record; `datetime.now()` and the external
completion client are passed in as parameters.  `json.dumps`/`json.loads`
on the message lists are modelled by a concrete executable serializer and
deserializer covering the shape this program stores (a list of
role/content records with string escaping for quote and backslash).
-/

/-- Characters treated as whitespace by Python `str.strip()` (the Unicode
whitespace set). -/
def pyIsSpace (c : Char) : Bool :=
  [' ', '\t', '\n', '\r', '\x0b', '\x0c', '\x1c', '\x1d', '\x1e', '\x1f',
    '\x85', '\xa0', '\u1680', '\u2000', '\u2001', '\u2002', '\u2003',
    '\u2004', '\u2005', '\u2006', '\u2007', '\u2008', '\u2009', '\u200a',
    '\u2028', '\u2029', '\u202f', '\u205f', '\u3000'].contains c

/-- Python `s.strip()`: drop leading and trailing whitespace. -/
def pyStrip (s : List Char) : List Char :=
  ((s.dropWhile pyIsSpace).reverse.dropWhile pyIsSpace).reverse

/-- Model of `generate_chat_title` (src/chatbot.py lines 81-94): placeholder for
empty input; otherwise strip, return as-is when at most 30 characters,
else first 25 characters plus an ellipsis. -/
def generate_chat_title (first_message : List Char) : List Char :=
  if first_message = [] then
    "New Chat".toList
  else if (pyStrip first_message).length ≤ 30 then
    pyStrip first_message
  else
    (pyStrip first_message).take 25 ++ "...".toList

/-- A well-formed chat message: a record with a role and a content string
(the dicts this app builds always carry exactly these two keys). -/
structure Msg where
  role : List Char
  content : List Char
deriving DecidableEq, Repr

/-- A possibly malformed message dict as seen by `get_first_user_message`:
either key may be absent (`msg.get` returns `None`). -/
structure PyMsg where
  role : Option (List Char)
  content : Option (List Char)
deriving DecidableEq, Repr

/-- Embed a well-formed message into the loose dict view. -/
def Msg.toPy (m : Msg) : PyMsg :=
  ⟨some m.role, some m.content⟩

/-- The loop body of `get_first_user_message`: first entry whose role is
"user" yields its content (empty default), otherwise empty text. -/
def firstUserAux : List PyMsg → List Char
  | [] => []
  | m :: ms =>
    if m.role = some "user".toList then m.content.getD [] else firstUserAux ms

/-- String escaping as in `json.dumps`: quote and backslash get a
backslash prefix (the escapes this program's data can require). -/
def jsonEscape : List Char → List Char
  | [] => []
  | c :: cs => (if c = '"' || c = '\\' then ['\\', c] else [c]) ++ jsonEscape cs

/-- A JSON string literal: quote, escaped body, quote. -/
def encStr (s : List Char) : List Char :=
  '"' :: (jsonEscape s ++ ['"'])

/-- The text opening a serialized message object: left brace, the quoted
key `role`, colon, space. -/
def roleKey : List Char :=
  ['\x7b', '"', 'r', 'o', 'l', 'e', '"', ':', ' ']

/-- The text between the two fields: comma, space, the quoted key
`content`, colon, space. -/
def contentKey : List Char :=
  [',', ' ', '"', 'c', 'o', 'n', 't', 'e', 'n', 't', '"', ':', ' ']

/-- The separator `json.dumps` writes between list elements. -/
def commaSp : List Char :=
  [',', ' ']

/-- One serialized message object, keys in the insertion order this app
uses (role first, then content). -/
def encMsg (m : Msg) : List Char :=
  roleKey ++ encStr m.role ++ contentKey ++ encStr m.content ++ ['\x7d']

/-- The serialized tail of a message list: each further element preceded
by the separator. -/
def encTail : List Msg → List Char
  | [] => []
  | m :: ms => commaSp ++ encMsg m ++ encTail ms

/-- Serialization as `json.dumps` performs it on the message list stored
by `save_chat`. -/
def jsonDumps : List Msg → List Char
  | [] => ['[', ']']
  | m :: ms => '[' :: (encMsg m ++ encTail ms ++ [']'])

/-- Consume an expected literal text from the front of the input. -/
def parseLit : List Char → List Char → Option (List Char)
  | [], s => some s
  | _ :: _, [] => none
  | l :: ls, c :: cs => if c = l then parseLit ls cs else none

/-- Read a JSON string body up to the closing quote, undoing escapes. -/
def parseStrBody : List Char → Option (List Char × List Char)
  | [] => none
  | c :: rest =>
    if c = '"' then some ([], rest)
    else if c = '\\' then
      match rest with
      | [] => none
      | d :: rest2 => (parseStrBody rest2).map fun p => (d :: p.1, p.2)
    else (parseStrBody rest).map fun p => (c :: p.1, p.2)

/-- Read a JSON string literal (opening quote then body). -/
def parseString : List Char → Option (List Char × List Char)
  | [] => none
  | c :: rest => if c = '"' then parseStrBody rest else none

/-- Read one serialized message object. -/
def parseMsg (s : List Char) : Option (Msg × List Char) := do
  let s1 ← parseLit roleKey s
  let (r, s2) ← parseString s1
  let s3 ← parseLit contentKey s2
  let (c, s4) ← parseString s3
  let s5 ← parseLit ['\x7d'] s4
  some (⟨r, c⟩, s5)

/-- Read the remaining elements of a serialized message list: either a
separator followed by another message, or the closing bracket.  Fuel
bounds the recursion; each step consumes input. -/
def parseMsgsAux : Nat → List Char → Option (List Msg × List Char)
  | 0, _ => none
  | fuel + 1, s =>
    match parseLit commaSp s with
    | some s1 => do
      let (m, s2) ← parseMsg s1
      let (ms, s3) ← parseMsgsAux fuel s2
      some (m :: ms, s3)
    | none =>
      match s with
      | [] => none
      | c :: rest => if c = ']' then some ([], rest) else none

/-- Deserialization as `json.loads` performs it on the texts this store
writes: succeeds exactly on a
full serialized message list, returning the message sequence. -/
def jsonLoadsMsgs (s : List Char) : Option (List Msg) :=
  match s with
  | [] => none
  | c :: rest =>
    if c = '[' then
      match parseMsg rest with
      | some (m, s1) =>
        match parseMsgsAux (s1.length + 1) s1 with
        | some (ms, s2) => if s2 = [] then some (m :: ms) else none
        | none => none
      | none =>
        match rest with
        | [] => none
        | d :: rest2 => if d = ']' ∧ rest2 = [] then some [] else none
    else none

/-- The possible Python values reaching `get_first_user_message`: a text
payload from the store, an in-memory message list, or anything else
(iterating or key lookup raises, which the function catches). -/
inductive PyVal where
  | vStr : List Char → PyVal
  | vList : List PyMsg → PyVal
  | vOther : PyVal

/-- Model of `get_first_user_message` (src/chatbot.py lines 96-107): decode a text
input, scan for the first user-role entry, and swallow every failure by
returning empty text. -/
def get_first_user_message : PyVal → List Char
  | .vStr s =>
    match jsonLoadsMsgs s with
    | some ms => firstUserAux (ms.map Msg.toPy)
    | none => []
  | .vList ms => firstUserAux ms
  | .vOther => []

/-- A row of the `users` table created by `init_db`: integer primary key,
unique username, plaintext password. -/
structure UserRow where
  id : Nat
  username : List Char
  password : List Char
deriving DecidableEq, Repr

/-- A row of the `chats` table: integer primary key, owner id, title,
serialized messages, timestamp text. -/
structure ChatRow where
  id : Nat
  user_id : Nat
  title : List Char
  messages : List Char
  timestamp : List Char
deriving DecidableEq, Repr

/-- The persistent store `chat_history.db`: both tables plus the next
AUTOINCREMENT value of each primary key. -/
structure DB where
  users : List UserRow
  chats : List ChatRow
  nextUserId : Nat
  nextChatId : Nat
deriving DecidableEq, Repr

/-- Model of `init_db`: both tables exist and are empty; AUTOINCREMENT starts
at 1. -/
def init_db : DB :=
  ⟨[], [], 1, 1⟩

/-- Model of `login_user`: exact-match lookup of username and password. -/
def login_user (db : DB) (username password : List Char) : Option UserRow :=
  db.users.find? fun r => r.username == username && r.password == password

/-- Model of `register_user` (src/chatbot.py lines 44-54): INSERT a new user;
the UNIQUE constraint on `username` makes the insert fail (IntegrityError
caught, `False` returned) when the name is taken. -/
def register_user (db : DB) (username password : List Char) : DB × Bool :=
  if db.users.any fun r => r.username == username then
    (db, false)
  else
    ({ db with
        users := db.users ++ [⟨db.nextUserId, username, password⟩]
        nextUserId := db.nextUserId + 1 },
      true)

/-- Model of `save_chat` (src/chatbot.py lines 57-63): INSERT a fresh row carrying
the serialized message list and the current timestamp. -/
def save_chat (db : DB) (user_id : Nat) (title : List Char)
    (messages : List Msg) (now : List Char) : DB :=
  { db with
      chats := db.chats ++
        [⟨db.nextChatId, user_id, title, jsonDumps messages, now⟩]
      nextChatId := db.nextChatId + 1 }

/-- Byte-order comparison of SQLite TEXT values (code-point order, which
UTF-8 preserves): `strLeB a b` means `a ≤ b`. -/
def strLeB : List Char → List Char → Bool
  | [], _ => true
  | _ :: _, [] => false
  | a :: as, b :: bs =>
    if a.toNat < b.toNat then true
    else if b.toNat < a.toNat then false
    else strLeB as bs

/-- The ORDER BY relation of `load_chats`: row `a` comes no later than
row `b` when the timestamp of `a` is no smaller (descending order). -/
def tsGe (a b : ChatRow) : Prop :=
  strLeB b.timestamp a.timestamp = true

instance : DecidableRel tsGe := fun a b =>
  inferInstanceAs (Decidable (strLeB b.timestamp a.timestamp = true))

/-- The columns `load_chats` SELECTs from a chat row. -/
structure ChatSummary where
  id : Nat
  title : List Char
  messages : List Char
  timestamp : List Char
deriving DecidableEq, Repr

/-- Project a stored row onto the SELECTed columns. -/
def ChatRow.toSummary (r : ChatRow) : ChatSummary :=
  ⟨r.id, r.title, r.messages, r.timestamp⟩

/-- Descending-timestamp order on the returned summaries. -/
def tsGeS (a b : ChatSummary) : Prop :=
  strLeB b.timestamp a.timestamp = true

/-- Model of `load_chats` (src/chatbot.py lines 65-71): the rows of one user,
ordered by timestamp descending, projected to the SELECTed columns. -/
def load_chats (db : DB) (user_id : Nat) : List ChatSummary :=
  (List.insertionSort tsGe (db.chats.filter fun r => r.user_id == user_id)).map
    ChatRow.toSummary

/-- Model of `delete_chat` (src/chatbot.py lines 73-78): DELETE the row with the
given primary key, if any. -/
def delete_chat (db : DB) (chat_id : Nat) : DB :=
  { db with chats := db.chats.filter fun r => !(r.id == chat_id) }

/-- The per-session mutable state the send handler touches. -/
structure Session where
  messages : List Msg
  current_chat_title : List Char
  current_chat_id : Option Nat
deriving DecidableEq, Repr

/-- The "send message" handler (src/chatbot.py lines 358-388).  The
external completion client is a parameter: `some reply` models a
successful API call, `none` a raised error.  Returns the store, the
session state, and whether an error message was shown.  On success the
user and assistant turns are appended, the title is derived on the first
exchange, and the transcript is persisted; on failure only the user turn
remains, nothing is persisted, and the error is surfaced. -/
def send_message (completion : List Msg → Option (List Char)) (db : DB)
    (sess : Session) (uid : Nat) (user_input now : List Char) :
    DB × Session × Bool :=
  if user_input = [] then
    (db, sess, false)
  else
    let msgs1 := sess.messages ++ [⟨"user".toList, user_input⟩]
    match completion msgs1 with
    | some reply =>
      let msgs2 := msgs1 ++ [⟨"assistant".toList, reply⟩]
      let title :=
        if msgs2.length = 2 then generate_chat_title user_input
        else sess.current_chat_title
      (save_chat db uid title msgs2 now,
        ⟨msgs2, title, sess.current_chat_id⟩, false)
    | none =>
      (db, ⟨msgs1, sess.current_chat_title, sess.current_chat_id⟩, true)

/-! ### Helper lemmas -/

/-- Stripping never lengthens a string. -/
theorem pyStrip_length_le (s : List Char) : (pyStrip s).length ≤ s.length := by
  have h1 : (s.dropWhile pyIsSpace).length ≤ s.length :=
    (List.dropWhile_sublist _).length_le
  have h2 : ((s.dropWhile pyIsSpace).reverse.dropWhile pyIsSpace).length ≤
      (s.dropWhile pyIsSpace).reverse.length :=
    (List.dropWhile_sublist _).length_le
  simp only [pyStrip, List.length_reverse] at *
  omega

/-- Consuming an expected literal from itself plus a remainder. -/
theorem parseLit_append (lit rest : List Char) :
    parseLit lit (lit ++ rest) = some rest := by
  induction lit with
  | nil => rfl
  | cons l ls ih => simp [parseLit, ih]

/-- The string-body reader undoes the escaper. -/
theorem parseStrBody_enc (s rest : List Char) :
    parseStrBody (jsonEscape s ++ '"' :: rest) = some (s, rest) := by
  induction s with
  | nil =>
    rw [jsonEscape, List.nil_append, parseStrBody.eq_def]
    simp
  | cons c cs ih =>
    by_cases h : c = '"' ∨ c = '\\'
    · have hb : (c = '"' || c = '\\') = true := by
        rcases h with h | h <;> simp [h]
      have hsh : jsonEscape (c :: cs) ++ '"' :: rest =
          '\\' :: c :: (jsonEscape cs ++ '"' :: rest) := by
        simp [jsonEscape, hb]
      rw [hsh, parseStrBody.eq_def]
      simp [ih]
    · push_neg at h
      have hb : (c = '"' || c = '\\') = false := by
        simp [h.1, h.2]
      have hsh : jsonEscape (c :: cs) ++ '"' :: rest =
          c :: (jsonEscape cs ++ '"' :: rest) := by
        simp [jsonEscape, hb]
      rw [hsh, parseStrBody.eq_def]
      simp [h.1, h.2, ih]

/-- The string reader undoes the string encoder. -/
theorem parseString_enc (s rest : List Char) :
    parseString (encStr s ++ rest) = some (s, rest) := by
  simp [encStr, parseString, parseStrBody_enc]

/-- The message reader undoes the message encoder. -/
theorem parseMsg_enc (m : Msg) (rest : List Char) :
    parseMsg (encMsg m ++ rest) = some (m, rest) := by
  simp only [encMsg, List.append_assoc]
  simp [parseMsg, parseLit_append, parseString_enc, bind, parseLit]

/-- Each serialized tail element occupies at least one character. -/
theorem length_le_encTail (ms : List Msg) : ms.length ≤ (encTail ms).length := by
  induction ms with
  | nil => simp [encTail]
  | cons m ms ih => simp [encTail, commaSp]; omega

/-- The tail reader undoes the tail encoder, given enough fuel. -/
theorem parseMsgsAux_enc (ms : List Msg) :
    ∀ (fuel : Nat) (rest : List Char), ms.length < fuel →
      parseMsgsAux fuel (encTail ms ++ ']' :: rest) = some (ms, rest) := by
  induction ms with
  | nil =>
    intro fuel rest hf
    match fuel, hf with
    | fuel + 1, _ => simp [encTail, parseMsgsAux, parseLit, commaSp]
  | cons m ms ih =>
    intro fuel rest hf
    match fuel, hf with
    | fuel + 1, hf =>
      have hlt : ms.length < fuel := by simp at hf; omega
      simp only [encTail, List.append_assoc]
      simp [parseMsgsAux, parseLit_append, parseMsg_enc, ih fuel rest hlt, bind]

/-- Round trip: deserializing a serialized message list restores it. -/
theorem jsonLoadsMsgs_dumps (ms : List Msg) :
    jsonLoadsMsgs (jsonDumps ms) = some ms := by
  cases ms with
  | nil => rfl
  | cons m ms =>
    have henc : parseMsg (encMsg m ++ (encTail ms ++ [']'])) =
        some (m, encTail ms ++ [']']) := parseMsg_enc m (encTail ms ++ [']'])
    have hfuel : ms.length < (encTail ms ++ [']']).length + 1 := by
      have := length_le_encTail ms
      simp
      omega
    have haux : parseMsgsAux ((encTail ms ++ [']']).length + 1)
        (encTail ms ++ ']' :: []) = some (ms, []) :=
      parseMsgsAux_enc ms _ [] hfuel
    have haux2 : parseMsgsAux ((encTail ms).length + 1 + 1)
        (encTail ms ++ [']']) = some (ms, []) := by
      have hlen : (encTail ms ++ [']']).length = (encTail ms).length + 1 := by
        simp
      rw [← hlen]
      simpa using haux
    simp only [jsonDumps, jsonLoadsMsgs, List.append_assoc]
    simp only [List.cons_append, List.nil_append] at *
    simp [henc, haux2]

/-- The byte-order comparison is total. -/
theorem strLeB_total (a b : List Char) :
    strLeB a b = true ∨ strLeB b a = true := by
  induction a generalizing b with
  | nil => exact Or.inl rfl
  | cons x xs ih =>
    cases b with
    | nil => exact Or.inr rfl
    | cons y ys =>
      rcases Nat.lt_trichotomy x.toNat y.toNat with h | h | h
      · left
        simp [strLeB, h]
      · rcases ih ys with hxy | hyx
        · left
          simp [strLeB, h, hxy]
        · right
          simp [strLeB, h, hyx]
      · right
        simp [strLeB, h]

/-- The byte-order comparison is transitive. -/
theorem strLeB_trans (a b c : List Char) (hab : strLeB a b = true)
    (hbc : strLeB b c = true) : strLeB a c = true := by
  induction a generalizing b c with
  | nil => rfl
  | cons x xs ih =>
    cases b with
    | nil => simp [strLeB] at hab
    | cons y ys =>
      cases c with
      | nil => simp [strLeB] at hbc
      | cons z zs =>
        simp only [strLeB] at hab hbc ⊢
        split_ifs at hab hbc ⊢ <;> try omega
        all_goals
          first
          | rfl
          | omega
          | exact ih ys zs hab hbc

instance : IsTotal ChatRow tsGe :=
  ⟨fun a b => (strLeB_total b.timestamp a.timestamp).elim Or.inl Or.inr⟩

instance : IsTrans ChatRow tsGe :=
  ⟨fun a b c hab hbc => strLeB_trans c.timestamp b.timestamp a.timestamp hbc hab⟩

/-- Filtering twice with one predicate is the same as filtering once. -/
theorem filter_idem {α : Type} (p : α → Bool) (l : List α) :
    (l.filter p).filter p = l.filter p := by
  induction l with
  | nil => rfl
  | cons a l ih => by_cases h : p a <;> simp [List.filter_cons, h, ih]

/-- Scanning a message list whose first user-role entry is `m` returns
the content of `m` (with empty default). -/
theorem firstUserAux_first (pre post : List PyMsg) (m : PyMsg)
    (hpre : ∀ m' ∈ pre, m'.role ≠ some "user".toList)
    (hm : m.role = some "user".toList) :
    firstUserAux (pre ++ m :: post) = m.content.getD [] := by
  induction pre with
  | nil => simp [firstUserAux, hm]
  | cons a pre ih =>
    have ha : a.role ≠ some "user".toList := hpre a (List.mem_cons_self a pre)
    rw [List.cons_append, firstUserAux, if_neg ha]
    exact ih fun m' hm' => hpre m' (List.mem_cons_of_mem a hm')

/-- Scanning a message list with no user-role entry returns empty. -/
theorem firstUserAux_none (ms : List PyMsg)
    (h : ∀ m' ∈ ms, m'.role ≠ some "user".toList) :
    firstUserAux ms = [] := by
  induction ms with
  | nil => rfl
  | cons a ms ih =>
    rw [firstUserAux, if_neg (h a (List.mem_cons_self a ms))]
    exact ih fun m' hm' => h m' (List.mem_cons_of_mem a hm')

/-! ### Claim theorems -/

/-- Claim C10: every title produced by `generate_chat_title` has at most
30 characters: the placeholder has 8, a short stripped input keeps its
length of at most 30, and a long input is cut to 25 plus a 3-character
ellipsis. -/
theorem generate_chat_title_length_le (T : List Char) :
    (generate_chat_title T).length ≤ 30 := by
  unfold generate_chat_title
  split_ifs with h1 h2
  · decide
  · exact h2
  · have h3 : ((pyStrip T).take 25).length ≤ 25 :=
      List.length_take_le 25 (pyStrip T)
    have h4 : ("...".toList).length = 3 := by decide
    simp only [List.length_append]
    omega

/-- Claim C1 counterexample: the three-character input consisting of a
space, the letter a and a space has length at most 30 yet is not returned
verbatim: `generate_chat_title` strips the surrounding whitespace. -/
theorem generate_chat_title_not_verbatim :
    ([' ', 'a', ' '].length ≤ 30) ∧
    generate_chat_title [' ', 'a', ' '] ≠ [' ', 'a', ' '] := by
  decide

/-- Claim C1 (amended): for input of length at most 30,
`generate_chat_title` returns the input with surrounding whitespace
stripped (hence verbatim whenever it carries none), and the empty string
yields the placeholder "New Chat". -/
theorem generate_chat_title_short (T : List Char) (h : T.length ≤ 30) :
    generate_chat_title T =
      if T = [] then "New Chat".toList else pyStrip T := by
  by_cases he : T = []
  · simp [generate_chat_title, he]
  · have hle : (pyStrip T).length ≤ 30 := le_trans (pyStrip_length_le T) h
    simp [generate_chat_title, he, hle]

/-- Witness for the amended C1 at the two-character input "hi". -/
theorem generate_chat_title_short_witness :
    ("hi".toList.length ≤ 30) ∧
    generate_chat_title "hi".toList =
      (if "hi".toList = [] then "New Chat".toList else pyStrip "hi".toList) :=
  ⟨by decide, generate_chat_title_short "hi".toList (by decide)⟩

/-- Claim C6 counterexample: a space followed by 31 letters a has length
32, above 30, but the title is built from the stripped text, not from the
first 25 characters of the raw input. -/
theorem generate_chat_title_long_cex :
    (30 < (' ' :: List.replicate 31 'a').length) ∧
    generate_chat_title (' ' :: List.replicate 31 'a') ≠
      (' ' :: List.replicate 31 'a').take 25 ++ "...".toList := by
  decide

/-- Claim C6 (amended): when the stripped input has length above 30, the
title is the first 25 characters of the stripped input followed by the
ellipsis "...", and its length is always 28. -/
theorem generate_chat_title_long (T : List Char)
    (h : 30 < (pyStrip T).length) :
    generate_chat_title T = (pyStrip T).take 25 ++ "...".toList ∧
    (generate_chat_title T).length = 28 := by
  have hne : T ≠ [] := by
    intro he
    rw [he] at h
    simp [pyStrip] at h
  have hnle : ¬ (pyStrip T).length ≤ 30 := by omega
  refine ⟨by simp [generate_chat_title, hne, hnle], ?_⟩
  have htake : ((pyStrip T).take 25).length = 25 := by
    rw [List.length_take]
    omega
  have h4 : ("...".toList).length = 3 := by decide
  simp only [generate_chat_title, if_neg hne, if_neg hnle, List.length_append]
  omega

/-- Witness for the amended C6 at an input of 31 letters a. -/
theorem generate_chat_title_long_witness :
    (30 < (pyStrip (List.replicate 31 'a')).length) ∧
    (generate_chat_title (List.replicate 31 'a') =
      (pyStrip (List.replicate 31 'a')).take 25 ++ "...".toList ∧
     (generate_chat_title (List.replicate 31 'a')).length = 28) :=
  ⟨by decide, generate_chat_title_long (List.replicate 31 'a') (by decide)⟩

/-- Claim C3: after saving a transcript, loading the conversations of that
user contains the newly created conversation, and
deserializing its stored message payload restores the saved message
sequence exactly, in order. -/
theorem save_chat_load_chats_roundtrip (db : DB) (uid : Nat)
    (title : List Char) (msgs : List Msg) (now : List Char) :
    ∃ s ∈ load_chats (save_chat db uid title msgs now) uid,
      s.id = db.nextChatId ∧ jsonLoadsMsgs s.messages = some msgs := by
  refine ⟨ChatRow.toSummary ⟨db.nextChatId, uid, title, jsonDumps msgs, now⟩,
    ?_, rfl, jsonLoadsMsgs_dumps msgs⟩
  unfold load_chats
  apply List.mem_map_of_mem
  rw [(List.perm_insertionSort tsGe _).mem_iff]
  simp [save_chat, List.mem_filter]

/-- Claim C4: with a fresh username, a second registration attempt under
the same name reports failure, and afterwards the user table holds
exactly one record with that username. -/
theorem register_user_twice (db : DB) (u p1 p2 : List Char)
    (h : ∀ r ∈ db.users, r.username ≠ u) :
    (register_user (register_user db u p1).1 u p2).2 = false ∧
    ((register_user (register_user db u p1).1 u p2).1.users.filter
        fun r => r.username == u).length = 1 := by
  have hany : (db.users.any fun r => r.username == u) = false := by
    rw [List.any_eq_false]
    intro r hr
    simpa using h r hr
  have hfil : (db.users.filter fun r => r.username == u) = [] := by
    rw [List.filter_eq_nil_iff]
    intro r hr
    simpa using h r hr
  constructor
  · simp [register_user, hany]
  · simp [register_user, hany, List.filter_append, hfil]

/-- Witness for C4 from the freshly initialized store. -/
theorem register_user_twice_witness :
    (register_user (register_user init_db "al".toList "pw1".toList).1
      "al".toList "pw2".toList).2 = false ∧
    ((register_user (register_user init_db "al".toList "pw1".toList).1
      "al".toList "pw2".toList).1.users.filter
        fun r => r.username == "al".toList).length = 1 :=
  register_user_twice init_db "al".toList "pw1".toList "pw2".toList
    (by decide)

/-- Claim C5: deleting a conversation id twice leaves the same store as
deleting it once, and deleting an id that is not present changes
nothing (and is no error: the operation is total). -/
theorem delete_chat_idempotent (db : DB) (cid : Nat) :
    delete_chat (delete_chat db cid) cid = delete_chat db cid ∧
    ((∀ r ∈ db.chats, r.id ≠ cid) → delete_chat db cid = db) := by
  constructor
  · simp [delete_chat, filter_idem]
  · intro h
    have hfil : (db.chats.filter fun r => !(r.id == cid)) = db.chats := by
      rw [List.filter_eq_self]
      intro r hr
      simpa using h r hr
    simp [delete_chat, hfil]

/-- Witness for C5 on the freshly initialized store. -/
theorem delete_chat_idempotent_witness :
    delete_chat (delete_chat init_db 5) 5 = delete_chat init_db 5 ∧
    delete_chat init_db 5 = init_db :=
  ⟨(delete_chat_idempotent init_db 5).1,
   (delete_chat_idempotent init_db 5).2 (by decide)⟩

/-- Claim C8: `load_chats` returns exactly the stored conversations of
the requested user (as a permutation of the filtered table) and the
result is sorted by timestamp descending. -/
theorem load_chats_sorted_perm (db : DB) (uid : Nat) :
    List.Perm (load_chats db uid)
      ((db.chats.filter fun r => r.user_id == uid).map ChatRow.toSummary) ∧
    List.Sorted tsGeS (load_chats db uid) := by
  constructor
  · exact (List.perm_insertionSort tsGe _).map _
  · exact (List.sorted_insertionSort tsGe _).map _ fun a b hab => hab

/-- Claim C9: `save_chat` appends one fresh row and leaves the user
table and every previously stored conversation row unchanged; the fresh
primary key differs from every existing one. -/
theorem save_chat_always_inserts (db : DB) (uid : Nat) (title : List Char)
    (msgs : List Msg) (now : List Char)
    (h : ∀ r ∈ db.chats, r.id < db.nextChatId) :
    (save_chat db uid title msgs now).users = db.users ∧
    (save_chat db uid title msgs now).chats =
      db.chats ++ [⟨db.nextChatId, uid, title, jsonDumps msgs, now⟩] ∧
    ∀ r ∈ db.chats, r.id ≠ db.nextChatId :=
  ⟨rfl, rfl, fun r hr => Nat.ne_of_lt (h r hr)⟩

/-- Witness for C9 on the freshly initialized store. -/
theorem save_chat_always_inserts_witness :
    (save_chat init_db 1 "t".toList [] "2026-01-01 00:00:00".toList).users =
      init_db.users ∧
    (save_chat init_db 1 "t".toList [] "2026-01-01 00:00:00".toList).chats =
      init_db.chats ++ [⟨init_db.nextChatId, 1, "t".toList, jsonDumps [],
        "2026-01-01 00:00:00".toList⟩] ∧
    ∀ r ∈ init_db.chats, r.id ≠ init_db.nextChatId :=
  save_chat_always_inserts init_db 1 "t".toList []
    "2026-01-01 00:00:00".toList (by decide)

/-- Claim C2: when the completion call fails on a send, the transcript
keeps exactly the appended user message (no assistant reply), the store
is unchanged (no new conversation row), and the error is surfaced. -/
theorem send_message_failure (completion : List Msg → Option (List Char))
    (db : DB) (sess : Session) (uid : Nat) (input now : List Char)
    (hin : input ≠ [])
    (hfail : completion (sess.messages ++ [⟨"user".toList, input⟩]) = none) :
    send_message completion db sess uid input now =
      (db, ⟨sess.messages ++ [⟨"user".toList, input⟩],
        sess.current_chat_title, sess.current_chat_id⟩, true) := by
  unfold send_message
  rw [if_neg hin]
  dsimp only
  rw [hfail]

/-- Witness for C2: a completion client that always fails, applied from
a fresh session. -/
theorem send_message_failure_witness :
    send_message (fun _ => none) init_db ⟨[], "New Chat".toList, none⟩ 1
      "Hello".toList "2026-01-01 00:00:00".toList =
      (init_db, ⟨[⟨"user".toList, "Hello".toList⟩], "New Chat".toList, none⟩,
        true) :=
  send_message_failure (fun _ => none) init_db ⟨[], "New Chat".toList, none⟩ 1
    "Hello".toList "2026-01-01 00:00:00".toList (by decide) rfl

/-- Claim C7: the first-user-message scan returns the content of the
first user-role entry when one exists, empty text when none exists, and
empty text (without any fault: the function is total) on a payload that
does not decode and on a non-sequence value. -/
theorem get_first_user_message_spec (pre post ms : List PyMsg) (m : PyMsg)
    (s : List Char) :
    ((∀ m' ∈ pre, m'.role ≠ some "user".toList) →
      m.role = some "user".toList →
      get_first_user_message (.vList (pre ++ m :: post)) =
        m.content.getD []) ∧
    ((∀ m' ∈ ms, m'.role ≠ some "user".toList) →
      get_first_user_message (.vList ms) = []) ∧
    (jsonLoadsMsgs s = none → get_first_user_message (.vStr s) = []) ∧
    get_first_user_message .vOther = [] := by
  refine ⟨fun hpre hm => firstUserAux_first pre post m hpre hm,
    fun h => firstUserAux_none ms h, fun h => ?_, rfl⟩
  simp [get_first_user_message, h]

/-- Witness for C7: a concrete mixed message list, a user-free list, a
non-JSON payload and a non-sequence value. -/
theorem get_first_user_message_spec_witness :
    (get_first_user_message (.vList
        ([⟨some "assistant".toList, some "x".toList⟩] ++
          (⟨some "user".toList, some "hi".toList⟩ : PyMsg) ::
            [⟨some "user".toList, some "bye".toList⟩])) =
      (some "hi".toList).getD []) ∧
    (get_first_user_message
        (.vList [⟨some "assistant".toList, some "y".toList⟩]) = []) ∧
    (get_first_user_message (.vStr "oops".toList) = []) ∧
    get_first_user_message .vOther = [] :=
  have h := get_first_user_message_spec
    [⟨some "assistant".toList, some "x".toList⟩]
    [⟨some "user".toList, some "bye".toList⟩]
    [⟨some "assistant".toList, some "y".toList⟩]
    ⟨some "user".toList, some "hi".toList⟩ "oops".toList
  ⟨h.1 (by decide) (by decide), h.2.1 (by decide), h.2.2.1 (by decide),
    h.2.2.2⟩
